import Mathlib

/-!
Verification of the reload-proof scorekeeping application
(`src/InternalDraftLeague.js`) against its natural-language specification.

The JavaScript source is shallowly embedded: JS strings are `String` (or
`List Char` for the CSV routines, which walk character by character),
JS numbers holding millisecond timestamps are `Nat` (or `Int` where
differences may go negative, as in the countdown timer), JS objects are
structures, and fallible storage writes are `Option`-valued.  JS
truthiness tests on numbers are translated as `≠ 0` and on strings as
`≠ ""` at the places the source relies on them.
-/

namespace Scorekeeper

/-! ## Definitions: shallow embedding of the source -/

/-- The regex test `/[",\n\r]/.test(s)` of `Utils.toCSVLine`. -/
def needsQuoting (s : List Char) : Bool :=
  s.any (fun c => c == '"' || c == ',' || c == '\n' || c == '\r')

/-- `s.replace(/"/g, '""')` from `Utils.toCSVLine`. -/
def escapeQuotes : List Char → List Char
  | [] => []
  | c :: r => if c = '"' then '"' :: '"' :: escapeQuotes r else c :: escapeQuotes r

/-- One field of `Utils.toCSVLine`: quote-wrap (doubling inner quotes)
exactly when the field contains a quote, comma, CR or LF. -/
def csvField (s : List Char) : List Char :=
  if needsQuoting s then '"' :: (escapeQuotes s ++ ['"']) else s

/-- `Utils.toCSVLine`: escape every field and join with commas. -/
def toCSVLine (fields : List (List Char)) : List Char :=
  List.intercalate [','] (fields.map csvField)

/-- The character loop of `Utils.parseCSV`.  State: remaining input,
`inQuotes`, current cell, current row, finished rows.  A `""` pair inside
quotes emits one quote; an unquoted comma ends the cell; an unquoted CR/LF
ends the row (skipped if empty); any other character is appended except
that `'\r'` is always dropped (the source's `if (char !== '\r') cell += char`). -/
def parseCSVAux : List Char → Bool → List Char → List (List Char) →
    List (List (List Char)) → List (List (List Char))
  | [], _, cell, row, rows =>
      if cell ≠ [] ∨ row ≠ [] then rows ++ [row ++ [cell]] else rows
  | '"' :: '"' :: rest, true, cell, row, rows =>
      parseCSVAux rest true (cell ++ ['"']) row rows
  | '"' :: rest, inQuotes, cell, row, rows =>
      parseCSVAux rest (!inQuotes) cell row rows
  | c :: rest, inQuotes, cell, row, rows =>
      if c = ',' ∧ inQuotes = false then
        parseCSVAux rest false [] (row ++ [cell]) rows
      else if (c = '\n' ∨ c = '\r') ∧ inQuotes = false then
        if cell ≠ [] ∨ row ≠ [] then
          parseCSVAux rest false [] [] (rows ++ [row ++ [cell]])
        else
          parseCSVAux rest false [] [] rows
      else if c ≠ '\r' then
        parseCSVAux rest inQuotes (cell ++ [c]) row rows
      else
        parseCSVAux rest inQuotes cell row rows

/-- `Utils.parseCSV`: parse text into rows of cells. -/
def parseCSV (text : List Char) : List (List (List Char)) :=
  parseCSVAux text false [] [] []

/-- `ScorekeeperApp.computeAbbaForIndex`: the M/F marker for the point at
`index`, given the configured starting side (`abbaStart`, `"F"` or
anything-else-meaning-`"M"`). -/
def computeAbbaForIndex (abbaStart : String) (index : Nat) : String :=
  let start := if abbaStart = "F" then "F" else "M"
  let other := if start = "M" then "F" else "M"
  if index = 0 then start
  else
    let adjusted := index - 1
    let block := adjusted / 2
    if block % 2 = 0 then other else start

/-- `CONFIG.DEFAULT_TIMER_MINUTES`. -/
def DEFAULT_TIMER_MINUTES : Int := 100

/-- In-memory state of `TimerManager`: `isRunning`, `endTime`
(a `Date` or `null`), `remainingTimeMs` (a number or `null`). -/
structure TimerState where
  isRunning : Bool
  endTime : Option Int
  remainingTimeMs : Option Int
deriving DecidableEq, Repr

/-- `TimerManager.getTimeRemaining(endtime).total`: `endtime - now`. -/
def getTimeRemaining (endtime now : Int) : Int := endtime - now

/-- `TimerManager.start()`: no-op if running; otherwise convert a pending
`remainingTimeMs` into an absolute `endTime`, fall back to the default
duration when neither is set, and mark the timer running. -/
def timerStart (s : TimerState) (now : Int) : TimerState :=
  if s.isRunning then s
  else
    let s1 :=
      match s.remainingTimeMs with
      | some r => { s with endTime := some (now + r), remainingTimeMs := none }
      | none => s
    let s2 :=
      match s1.endTime with
      | none => { s1 with endTime := some (now + DEFAULT_TIMER_MINUTES * 60 * 1000) }
      | some _ => s1
    { s2 with isRunning := true }

/-- `TimerManager.stop()`: no-op if not running; otherwise store the
remaining time clamped to `≥ 0` (`Math.max(0, total)`), clear `endTime`
and stop running. -/
def timerStop (s : TimerState) (now : Int) : TimerState :=
  if !s.isRunning then s
  else
    let s1 :=
      match s.endTime with
      | some e => { s with remainingTimeMs := some (max 0 (getTimeRemaining e now)) }
      | none => s
    { s1 with isRunning := false, endTime := none }

/-- `TimerManager.reset(minutes)`: stop, then force `remainingTimeMs` to
`minutes * 60 * 1000` with no `endTime`. -/
def timerReset (s : TimerState) (minutes : Int) (now : Int) : TimerState :=
  let s1 := timerStop s now
  { s1 with remainingTimeMs := some (minutes * 60 * 1000), endTime := none }

/-- The three persisted keys written by `TimerManager.saveTimerState`:
`timerEndTime` (ISO string or `null`), `timerRunning`, `timerRemainingTime`. -/
structure TimerPersist where
  timerEndTime : Option Int
  timerRunning : Bool
  timerRemainingTime : Option Int
deriving DecidableEq, Repr

/-- `TimerManager.saveTimerState()`. -/
def saveTimerState (s : TimerState) : TimerPersist :=
  { timerEndTime := s.endTime
    timerRunning := s.isRunning
    timerRemainingTime := s.remainingTimeMs }

/-- `TimerManager.loadTimerState()`, starting from the constructor state
(`isRunning = false`, `endTime = null`, `remainingTimeMs = null`).
The guard `if (storedRemainingTime)` is JS truthiness: a stored numeric `0`
is falsy and is therefore NOT restored into `remainingTimeMs`. -/
def loadTimerState (p : TimerPersist) (now : Int) : TimerState :=
  let s0 : TimerState := { isRunning := false, endTime := none, remainingTimeMs := none }
  let s1 :=
    match p.timerEndTime with
    | some e => { s0 with endTime := some e }
    | none => s0
  let s2 :=
    match p.timerRemainingTime with
    | some r => if r ≠ 0 then { s1 with remainingTimeMs := some r } else s1
    | none => s1
  let s3 := { s2 with isRunning := p.timerRunning }
  match s3.isRunning, s3.endTime with
  | true, some e =>
      if getTimeRemaining e now ≤ 0 then
        timerStop s3 now
      else
        timerStart s3 now
  | _, _ =>
      match s3.remainingTimeMs with
      | some r => { s3 with remainingTimeMs := some r, endTime := none }
      | none => timerReset s3 DEFAULT_TIMER_MINUTES now

/-- `TimerManager.getRemainingSeconds()`: `Math.floor(total / 1000)` from the
end time while running, else from the paused remaining time, else `0`. -/
def getRemainingSeconds (s : TimerState) (now : Int) : Int :=
  match s.isRunning, s.endTime with
  | true, some e => Int.fdiv (getTimeRemaining e now) 1000
  | _, _ =>
      match s.remainingTimeMs with
      | some r => Int.fdiv r 1000
      | none => 0

/-- One point-log entry, as built by `ScorekeeperApp.createLogObject`. -/
structure ScoreLog where
  scoreID : String
  GameID : String
  Time : String
  Team : String
  Score : String
  Assist : String
deriving DecidableEq, Repr

/-- The persisted `gameState` object (the session snapshot). -/
structure GameState where
  teamAScore : Nat
  teamBScore : Nat
  teamAName : String
  teamBName : String
  teamAPlayers : String
  teamBPlayers : String
  gameTime : String
  scoreLogs : List ScoreLog
  timestamp : Nat
deriving DecidableEq, Repr

/-- The zero-default snapshot literal used by both
`PersistenceManager.loadGameState` (as fallback) and
`DataManager.resetGameState`. -/
def freshGameState (now : Nat) : GameState :=
  { teamAScore := 0, teamBScore := 0, teamAName := "", teamBName := "",
    teamAPlayers := "", teamBPlayers := "", gameTime := "", scoreLogs := [],
    timestamp := now }

/-- The `teamsData` entry as saved by `saveTeamsData` (payload omitted;
only `expiresAt` drives `cleanupOldData`). -/
structure TeamsDataEntry where
  expiresAt : Nat
deriving DecidableEq, Repr

/-- The storage contents inspected by `cleanupOldData`. -/
structure Store where
  teamsData : Option TeamsDataEntry
  gameState : Option GameState
deriving DecidableEq, Repr

/-- `7 * 24 * 60 * 60 * 1000` from `PersistenceManager.cleanupOldData`. -/
def SEVEN_DAYS_MS : Nat := 7 * 24 * 60 * 60 * 1000

/-- `PersistenceManager.cleanupOldData`: drop the teams cache when expired
and the game state when older than 7 days (`gameState.timestamp` is also
truthiness-tested, i.e. `≠ 0`). -/
def cleanupOldData (now : Nat) (s : Store) : Store :=
  let s1 :=
    match s.teamsData with
    | some td => if now > td.expiresAt then { s with teamsData := none } else s
    | none => s
  match s1.gameState with
  | some gs =>
      if gs.timestamp ≠ 0 ∧ now - gs.timestamp > SEVEN_DAYS_MS then
        { s1 with gameState := none }
      else s1
  | none => s1

/-- Events observable during one `saveToStorage` call. -/
inductive SaveEvent where
  | writeAttempt
  | remediation
deriving DecidableEq, Repr

/-- `PersistenceManager.saveToStorage`: try the write; on failure run
`cleanupOldData` once and retry exactly once.  Returns the resulting store,
the boolean result, and the trace of attempts/remediations. -/
def saveToStorage (write : Store → Option Store) (now : Nat) (s : Store) :
    Store × Bool × List SaveEvent :=
  match write s with
  | some s' => (s', true, [SaveEvent.writeAttempt])
  | none =>
      let sc := cleanupOldData now s
      match write sc with
      | some s' =>
          (s', true, [SaveEvent.writeAttempt, SaveEvent.remediation, SaveEvent.writeAttempt])
      | none =>
          (sc, false, [SaveEvent.writeAttempt, SaveEvent.remediation, SaveEvent.writeAttempt])

/-- In-memory state of `DataManager` (the mirrored `scoreLogs` array and
the dirty flag). -/
structure DataManagerState where
  gameState : GameState
  scoreLogs : List ScoreLog
  isDirty : Bool
deriving DecidableEq, Repr

/-- `DataManager.markDirty`. -/
def markDirty (dm : DataManagerState) : DataManagerState :=
  { dm with isDirty := true }

/-- `DataManager.saveCurrentState` ("flush"): no-op when not dirty;
otherwise perform one underlying persistence write
(`persistenceManager.saveGameState`, whose success is the oracle
`writeOk`) and clear the dirty flag only on success.  The second
component counts the underlying writes performed. -/
def saveCurrentState (writeOk : Bool) (dm : DataManagerState) :
    DataManagerState × Nat :=
  if dm.isDirty = false then (dm, 0)
  else if writeOk then ({ dm with isDirty := false }, 1) else (dm, 1)

structure ScorekeeperState where
  teamAName : String
  teamBName : String
  teamAScore : Nat
  teamBScore : Nat
  scoreLogs : List ScoreLog
deriving DecidableEq, Repr

/-- `ScorekeeperApp.createLogObject(scoreID, teamLetter, scorer, assist)`:
the entry stores the resolved team NAME (`teamLetter === 'A' ? teamAName :
teamBName`), not the letter. -/
def createLogObject (st : ScorekeeperState) (scoreID teamLetter scorer assist timeStr : String) :
    ScoreLog :=
  let gameID := st.teamAName ++ " vs " ++ st.teamBName
  let teamName := if teamLetter = "A" then st.teamAName else st.teamBName
  { scoreID := scoreID, GameID := gameID, Time := timeStr, Team := teamName,
    Score := scorer, Assist := assist }

/-- `ScorekeeperApp.addNewScore(team, scorer, assist)`: O(1) increment of the
owning side's total, then append an entry whose id is
`Date.now().toString()` (note: NOT `Utils.generateId`). -/
def addNewScore (st : ScorekeeperState) (team scorer assist timeStr : String) (now : Nat) :
    ScorekeeperState :=
  let st1 :=
    if team = "A" then { st with teamAScore := st.teamAScore + 1 }
    else { st with teamBScore := st.teamBScore + 1 }
  let newScoreID := Nat.repr now
  let logEntry := createLogObject st1 newScoreID team scorer assist timeStr
  { st1 with scoreLogs := st1.scoreLogs ++ [logEntry] }

/-- `DataManager.updateScoreLog(scoreID, {Score, Assist})`: `findIndex` then
`Object.assign` — only the FIRST entry with the id is updated, and only its
`Score`/`Assist` fields. -/
def updateScoreLog (logs : List ScoreLog) (scoreID scorer assist : String) : List ScoreLog :=
  match logs with
  | [] => []
  | e :: rest =>
      if e.scoreID = scoreID then { e with Score := scorer, Assist := assist } :: rest
      else e :: updateScoreLog rest scoreID scorer assist

/-- `DataManager.removeScoreLog(scoreID)`: `findIndex` then `splice` — the
first entry with the id is removed; a missing id leaves the log unchanged. -/
def removeScoreLog (logs : List ScoreLog) (scoreID : String) : List ScoreLog :=
  match logs with
  | [] => []
  | e :: rest =>
      if e.scoreID = scoreID then rest else e :: removeScoreLog rest scoreID

/-- `ScorekeeperApp.rebuildTableAndCounters`: reset both counters to 0 and
walk the log in order, incrementing A when the entry's `Team` equals the
current Team A selector value and B otherwise. -/
def rebuildTableAndCounters (st : ScorekeeperState) : ScorekeeperState :=
  let counts := st.scoreLogs.foldl
    (fun (ab : Nat × Nat) e =>
      if e.Team = st.teamAName then (ab.1 + 1, ab.2) else (ab.1, ab.2 + 1))
    (0, 0)
  { st with teamAScore := counts.1, teamBScore := counts.2 }

/-- One user-driven mutation of the point log. -/
inductive LogAction where
  | append (team scorer assist timeStr : String) (now : Nat)
  | edit (scoreID scorer assist : String)
  | delete (scoreID : String)
deriving DecidableEq, Repr

/-- Apply one action the way the handlers do: `handleSaveScore` → append or
edit; `handleDeleteScore` → remove then `rebuildTableAndCounters`. -/
def applyAction (st : ScorekeeperState) : LogAction → ScorekeeperState
  | LogAction.append team scorer assist timeStr now =>
      addNewScore st team scorer assist timeStr now
  | LogAction.edit scoreID scorer assist =>
      { st with scoreLogs := updateScoreLog st.scoreLogs scoreID scorer assist }
  | LogAction.delete scoreID =>
      rebuildTableAndCounters { st with scoreLogs := removeScoreLog st.scoreLogs scoreID }

/-- A fresh session with the two team selector values fixed. -/
def initialState (a b : String) : ScorekeeperState :=
  { teamAName := a, teamBName := b, teamAScore := 0, teamBScore := 0, scoreLogs := [] }

/-- Fold a whole session's worth of actions. -/
def applyActions (st : ScorekeeperState) (acts : List LogAction) : ScorekeeperState :=
  acts.foldl applyAction st

/-- The `Date.now()` values observed by the append actions, in order. -/
def appendTimes : List LogAction → List Nat
  | [] => []
  | LogAction.append _ _ _ _ now :: rest => now :: appendTimes rest
  | _ :: rest => appendTimes rest

/-- Reachability invariant: every logged entry's `Team` is one of the two
current selector values. -/
def teamsValid (st : ScorekeeperState) : Prop :=
  ∀ e ∈ st.scoreLogs, e.Team = st.teamAName ∨ e.Team = st.teamBName

/-- The concrete action sequence used as the C1 witness. -/
def demoActs : List LogAction :=
  [LogAction.append "A" "s1" "x1" "t1" 10,
   LogAction.append "B" "s2" "x2" "t2" 20,
   LogAction.delete (Nat.repr 10)]

/-- Decimal digits of `n`, most significant first. -/
def decimalDigits (n : Nat) : List Char :=
  if n < 10 then [Nat.digitChar n]
  else decimalDigits (n / 10) ++ [Nat.digitChar (n % 10)]
decreasing_by exact Nat.div_lt_self (by omega) (by omega)

/-- Numeric value of a decimal digit character. -/
def digitVal (c : Char) : Nat := c.toNat - '0'.toNat

/-- `DataManager.resetGameState`: replace the snapshot with the fresh
zero-default literal and clear the mirrored log. -/
def resetGameState (dm : DataManagerState) (now : Nat) : DataManagerState :=
  { dm with gameState := freshGameState now, scoreLogs := [], isDirty := true }

/-- `DataManager.clearScoreLogs`. -/
def clearScoreLogs (dm : DataManagerState) : DataManagerState :=
  { dm with
    scoreLogs := [],
    gameState := { dm.gameState with scoreLogs := [] },
    isDirty := true }

/-- The `dataManager.updateGameState({teamAScore: 0, teamBScore: 0,
scoreLogs: [], timestamp: Date.now()})` call at the end of
`handleSubmitScore`: `Object.assign` of exactly those four fields. -/
def updateGameStateAfterSubmit (dm : DataManagerState) (now : Nat) : DataManagerState :=
  { dm with
    gameState := { dm.gameState with
      teamAScore := 0, teamBScore := 0, scoreLogs := [], timestamp := now },
    isDirty := true }

/-- The state mutations `handleSubmitScore` performs after the export
actions: `clearScoreLogs`, `rebuildTableAndCounters` (over the now-empty
log), `updateGameState({..zeros..})`, `saveCurrentState`.  Returns the app
state, the data-manager state, and the number of underlying writes. -/
def handleSubmitScoreTail (st : ScorekeeperState) (dm : DataManagerState)
    (now : Nat) (writeOk : Bool) : ScorekeeperState × DataManagerState × Nat :=
  let dm1 := clearScoreLogs dm
  let st1 := rebuildTableAndCounters { st with scoreLogs := dm1.scoreLogs }
  let dm2 := updateGameStateAfterSubmit dm1 now
  let r := saveCurrentState writeOk dm2
  (st1, r.1, r.2)

/-- `24 * 60 * 60 * 1000` from `ScorekeeperApp.checkAndRestoreState`. -/
def TWENTY_FOUR_HOURS_MS : Nat := 24 * 60 * 60 * 1000

/-- `PersistenceManager.loadGameState`: the stored snapshot, or the
zero-default literal when nothing (readable) is stored. -/
def loadGameState (stored : Option GameState) (now : Nat) : GameState :=
  match stored with
  | some gs => gs
  | none => freshGameState now

/-- `DataManager.loadAllData` (run by the constructor): adopt the loaded
snapshot and mirror its `scoreLogs` — with no age check of any kind. -/
def loadAllData (stored : Option GameState) (now : Nat) : DataManagerState :=
  let gs := loadGameState stored now
  { gameState := gs, scoreLogs := gs.scoreLogs, isDirty := false }

/-- App-visible outcome of startup: the constructor's running totals and
the data manager. -/
structure StartupResult where
  teamAScore : Nat
  teamBScore : Nat
  dataMgr : DataManagerState
deriving DecidableEq, Repr

/-- Startup: `new DataManager(...)` (which runs `loadAllData`), the
`ScorekeeperApp` constructor (`teamAScore = 0`, `teamBScore = 0`), then
`checkAndRestoreState`: only a snapshot whose truthy `timestamp` is
younger than 24 hours triggers the confirm prompt — restore
(`shouldRestore = true`) copies the snapshot totals, decline calls
`resetGameState`; an older snapshot is left loaded, untouched. -/
def startupSequence (stored : Option GameState) (now : Nat) (shouldRestore : Bool) :
    StartupResult :=
  let dm := loadAllData stored now
  let gs := dm.gameState
  if gs.timestamp ≠ 0 ∧ now - gs.timestamp < TWENTY_FOUR_HOURS_MS then
    if shouldRestore then
      { teamAScore := gs.teamAScore, teamBScore := gs.teamBScore, dataMgr := dm }
    else
      { teamAScore := 0, teamBScore := 0, dataMgr := resetGameState dm now }
  else
    { teamAScore := 0, teamBScore := 0, dataMgr := dm }

/-- The log rows a subsequent `handleSubmitScore` would export: it reads
`this.dataManager.scoreLogs` directly. -/
def exportLogs (dm : DataManagerState) : List ScoreLog := dm.scoreLogs

/-! ## Theorems -/

theorem digitVal_digitChar : ∀ d : Nat, d < 10 → digitVal (Nat.digitChar d) = d := by
  decide

theorem toDigitsCore_eq_decimalDigits (fuel : Nat) :
    ∀ (n : Nat) (ds : List Char), n < fuel →
    Nat.toDigitsCore 10 fuel n ds = decimalDigits n ++ ds := by
  induction fuel with
  | zero => intro n ds h; omega
  | succ fuel ih =>
      intro n ds h
      by_cases h10 : n < 10
      · have hdiv : n / 10 = 0 := Nat.div_eq_of_lt h10
        have hmod : n % 10 = n := Nat.mod_eq_of_lt h10
        simp [Nat.toDigitsCore, hdiv, decimalDigits, h10, hmod]
      · have hdiv : n / 10 ≠ 0 := by omega
        have hlt : n / 10 < fuel := by
          have hd : n / 10 < n := Nat.div_lt_self (by omega) (by omega)
          omega
        rw [show Nat.toDigitsCore 10 (fuel + 1) n ds
              = Nat.toDigitsCore 10 fuel (n / 10) (Nat.digitChar (n % 10) :: ds) from by
            simp [Nat.toDigitsCore, hdiv]]
        rw [ih (n / 10) (Nat.digitChar (n % 10) :: ds) hlt]
        rw [show decimalDigits n = decimalDigits (n / 10) ++ [Nat.digitChar (n % 10)] from by
          rw [decimalDigits]; simp [h10]]
        simp

theorem foldl_decimalDigits (n : Nat) :
    ∀ a : Nat,
    (decimalDigits n).foldl (fun x c => x * 10 + digitVal c) a
      = a * 10 ^ (decimalDigits n).length + n := by
  induction n using Nat.strong_induction_on with
  | _ n ih =>
      intro a
      by_cases h10 : n < 10
      · rw [decimalDigits]
        simp only [h10, if_pos]
        simp [digitVal_digitChar n h10]
      · have hlt : n / 10 < n := Nat.div_lt_self (by omega) (by omega)
        rw [show decimalDigits n = decimalDigits (n / 10) ++ [Nat.digitChar (n % 10)] from by
          rw [decimalDigits]; simp [h10]]
        rw [List.foldl_append, ih (n / 10) hlt a]
        simp only [List.foldl_cons, List.foldl_nil, List.length_append, List.length_singleton]
        rw [digitVal_digitChar (n % 10) (Nat.mod_lt n (by omega))]
        rw [Nat.pow_succ]
        have hnm : 10 * (n / 10) + n % 10 = n := Nat.div_add_mod n 10
        ring_nf
        omega

theorem decimalDigits_injective : Function.Injective decimalDigits := by
  intro m n h
  have hm := foldl_decimalDigits m 0
  have hn := foldl_decimalDigits n 0
  rw [h] at hm
  simp only [Nat.zero_mul, Nat.zero_add] at hm hn
  omega

theorem natRepr_injective : Function.Injective Nat.repr := by
  intro m n h
  unfold Nat.repr at h
  have hlist : Nat.toDigits 10 m = Nat.toDigits 10 n := by
    have := congrArg String.data h
    simpa [List.asString] using this
  unfold Nat.toDigits at hlist
  rw [toDigitsCore_eq_decimalDigits (m + 1) m [] (by omega),
      toDigitsCore_eq_decimalDigits (n + 1) n [] (by omega)] at hlist
  simp only [List.append_nil] at hlist
  exact decimalDigits_injective hlist

theorem parseCSVAux_step_other (c : Char) (rest cell : List Char) (row : List (List Char))
    (rows : List (List (List Char))) (hq : c ≠ '"') (hr : c ≠ '\r') :
    parseCSVAux (c :: rest) true cell row rows
      = parseCSVAux rest true (cell ++ [c]) row rows := by
  rw [parseCSVAux.eq_def]
  split
  all_goals simp_all

theorem parseCSVAux_open_quote (rest cell : List Char) (row : List (List Char))
    (rows : List (List (List Char))) :
    parseCSVAux ('"' :: rest) false cell row rows
      = parseCSVAux rest true cell row rows := by
  rw [parseCSVAux.eq_def]
  split
  · simp_all
  · simp_all
  · simp_all
  · simp_all [@eq_comm Char]

/-- Inside quotes, a run of escaped field content is accumulated verbatim
into the current cell (carriage returns excluded, which the parser drops). -/
theorem parseCSVAux_escaped (s : List Char) (hr : '\r' ∉ s) :
    ∀ (rest cell : List Char) (row : List (List Char)) (rows : List (List (List Char))),
    parseCSVAux (escapeQuotes s ++ rest) true cell row rows
      = parseCSVAux rest true (cell ++ s) row rows := by
  induction s with
  | nil => simp [escapeQuotes]
  | cons c t ih =>
    intro rest cell row rows
    have hrt : '\r' ∉ t := fun h => hr (List.mem_cons_of_mem _ h)
    have hcr : c ≠ '\r' := fun h => hr (h ▸ List.mem_cons_self c t)
    by_cases hc : c = '"'
    · subst hc
      have hstep : parseCSVAux ('"' :: '"' :: (escapeQuotes t ++ rest)) true cell row rows
          = parseCSVAux (escapeQuotes t ++ rest) true (cell ++ ['"']) row rows := rfl
      simp only [escapeQuotes, reduceIte, List.cons_append, hstep, ih hrt]
      simp
    · have he : escapeQuotes (c :: t) = c :: escapeQuotes t := by simp [escapeQuotes, hc]
      rw [he, List.cons_append, parseCSVAux_step_other c _ _ _ _ hc hcr, ih hrt]
      simp

theorem needsQuoting_of_mem (s : List Char)
    (hm : ',' ∈ s ∨ '"' ∈ s ∨ '\n' ∈ s) : needsQuoting s = true := by
  rcases hm with h | h | h <;>
    · refine List.any_eq_true.mpr ⟨_, h, ?_⟩
      simp

/-- C8 (amended): a field containing a comma, double quote, or newline — and
no carriage return — is serialized wrapped in double quotes with internal
quotes doubled, and parsing the serialized line recovers the original field. -/
theorem csv_field_roundtrip (s : List Char) (hr : '\r' ∉ s)
    (hm : ',' ∈ s ∨ '"' ∈ s ∨ '\n' ∈ s) :
    toCSVLine [s] = '"' :: (escapeQuotes s ++ ['"'])
      ∧ parseCSV (toCSVLine [s]) = [[s]] := by
  have hq : needsQuoting s = true := needsQuoting_of_mem s hm
  have hs : s ≠ [] := by
    rcases hm with h | h | h <;> exact List.ne_nil_of_mem h
  have hline : toCSVLine [s] = '"' :: (escapeQuotes s ++ ['"']) := by
    simp [toCSVLine, csvField, hq, List.intercalate]
  refine ⟨hline, ?_⟩
  rw [hline]
  show parseCSVAux ('"' :: (escapeQuotes s ++ ['"'])) false [] [] [] = [[s]]
  rw [parseCSVAux_open_quote, parseCSVAux_escaped s hr]
  show parseCSVAux ['"'] true s [] [] = [[s]]
  have hclose : parseCSVAux ['"'] true s [] [] = parseCSVAux [] false s [] [] := rfl
  rw [hclose]
  show (if s ≠ [] ∨ ([] : List (List Char)) ≠ [] then [[] ++ [s]] else []) = [[s]]
  simp [hs]

/-- C8 witness: the spec's own example field `Smith, "Ace"` round-trips, and
its serialization is exactly `"Smith, ""Ace"""`. -/
theorem csv_field_roundtrip_witness :
    ('\r' ∉ ("Smith, \"Ace\"".data) ∧
      (',' ∈ ("Smith, \"Ace\"".data) ∨ '"' ∈ ("Smith, \"Ace\"".data) ∨
        '\n' ∈ ("Smith, \"Ace\"".data)))
    ∧ (toCSVLine ["Smith, \"Ace\"".data]
          = '"' :: (escapeQuotes "Smith, \"Ace\"".data ++ ['"'])
        ∧ parseCSV (toCSVLine ["Smith, \"Ace\"".data]) = [["Smith, \"Ace\"".data]])
    ∧ toCSVLine ["Smith, \"Ace\"".data] = "\"Smith, \"\"Ace\"\"\"".data :=
  ⟨⟨by decide, by decide⟩,
    csv_field_roundtrip ("Smith, \"Ace\"".data) (by decide) (by decide),
    by decide⟩

/-- C8 counterexample: the claim as stated fails for a field that contains a
comma together with a carriage return — the parser silently drops the CR
inside the quotes, so the parsed field differs from the original. -/
theorem csv_field_roundtrip_cex :
    (',' ∈ ['a', ',', '\r', 'b'])
      ∧ parseCSV (toCSVLine [['a', ',', '\r', 'b']]) = [[['a', ',', 'b']]]
      ∧ parseCSV (toCSVLine [['a', ',', '\r', 'b']]) ≠ [[['a', ',', '\r', 'b']]] := by
  refine ⟨by decide, by decide, by decide⟩

/-- C2: the possession marker is a pure function of the starting side and the
index: for start `M` the first eight values are `M,F,F,M,M,F,F,M`, for start
`F` they are `F,M,M,F,F,M,M,F`, and in general index `0` yields the starting
side while later indices alternate in blocks of two
(`start, other, other, start, start, other, other, ...`). -/
theorem computeAbbaForIndex_spec :
    ((List.range 8).map (computeAbbaForIndex "M")
        = ["M", "F", "F", "M", "M", "F", "F", "M"])
    ∧ ((List.range 8).map (computeAbbaForIndex "F")
        = ["F", "M", "M", "F", "F", "M", "M", "F"])
    ∧ ∀ (s : String) (k : Nat),
        computeAbbaForIndex s 0 = (if s = "F" then "F" else "M")
        ∧ computeAbbaForIndex s (4 * k + 1) = (if s = "F" then "M" else "F")
        ∧ computeAbbaForIndex s (4 * k + 2) = (if s = "F" then "M" else "F")
        ∧ computeAbbaForIndex s (4 * k + 3) = (if s = "F" then "F" else "M")
        ∧ computeAbbaForIndex s (4 * k + 4) = (if s = "F" then "F" else "M") := by
  refine ⟨by decide, by decide, fun s k => ?_⟩
  by_cases hs : s = "F" <;> simp [computeAbbaForIndex, hs] <;> omega

/-- C3: starting a timer holding 100 minutes, persisting it, and reloading
30 seconds of wall-clock time later yields a running timer whose remaining
time is exactly 99 minutes 30 seconds, recomputed from the persisted
absolute `endTime` — not reset to the original 100 minutes. -/
theorem timer_reload_roundtrip (t : Int) :
    let s0 : TimerState :=
      { isRunning := false, endTime := none,
        remainingTimeMs := some (100 * 60 * 1000) }
    let s1 := timerStart s0 t
    let s2 := loadTimerState (saveTimerState s1) (t + 30 * 1000)
    s2.isRunning = true
    ∧ s2.endTime = some (t + 100 * 60 * 1000)
    ∧ getRemainingSeconds s2 (t + 30 * 1000) = 99 * 60 + 30
    ∧ getRemainingSeconds s2 (t + 30 * 1000) ≠ 100 * 60 := by
  have hpos : ¬ getTimeRemaining (t + 6000000) (t + 30000) ≤ 0 := by
    unfold getTimeRemaining; omega
  have hval : getTimeRemaining (t + 6000000) (t + 30 * 1000) = 5970000 := by
    unfold getTimeRemaining; ring
  have hs2 : loadTimerState (saveTimerState (timerStart
      { isRunning := false, endTime := none,
        remainingTimeMs := some (100 * 60 * 1000) } t)) (t + 30 * 1000)
      = { isRunning := true, endTime := some (t + 6000000), remainingTimeMs := none } := by
    simp only [timerStart, saveTimerState, loadTimerState]
    norm_num [hpos, timerStart]
  simp only [hs2, getRemainingSeconds, hval]
  refine ⟨trivial, rfl, by decide, by decide⟩

/-- C4 (code bug): pausing an expired running timer stores exactly
`remainingMs = 0` (never negative), but reloading that persisted state does
NOT restore the paused `0`: the falsy-`0` guard skips it and the timer is
re-initialized to the default 100 minutes, idle. -/
theorem timer_zero_remaining_reset_on_load :
    let running : TimerState :=
      { isRunning := true, endTime := some 1000000, remainingTimeMs := none }
    let paused := timerStop running 1005000
    saveTimerState paused
        = { timerEndTime := none, timerRunning := false, timerRemainingTime := some 0 }
    ∧ loadTimerState (saveTimerState paused) 2000000
        = { isRunning := false, endTime := none,
            remainingTimeMs := some (100 * 60 * 1000) }
    ∧ (loadTimerState (saveTimerState paused) 2000000).remainingTimeMs ≠ some 0 := by
  refine ⟨by decide, by decide, by decide⟩

/-- C5: `saveToStorage` succeeds iff the first write or the post-remediation
retry succeeds; when the first write succeeds the trace is a single write,
and when it fails the trace is exactly write, one remediation pass, one
retry write — never more. -/
theorem saveToStorage_spec (write : Store → Option Store) (now : Nat) (s : Store) :
    (saveToStorage write now s).2.1
        = ((write s).isSome || (write (cleanupOldData now s)).isSome)
    ∧ (saveToStorage write now s).2.2
        = (if (write s).isSome then [SaveEvent.writeAttempt]
           else [SaveEvent.writeAttempt, SaveEvent.remediation, SaveEvent.writeAttempt])
    ∧ ((saveToStorage write now s).2.2.count SaveEvent.remediation
        = if (write s).isSome then 0 else 1) := by
  unfold saveToStorage
  cases h1 : write s with
  | some s' => simp [h1]
  | none =>
      cases h2 : write (cleanupOldData now s) with
      | some s' => simp [h1, h2, List.count_cons]
      | none => simp [h1, h2, List.count_cons]

/-- C6: flushing twice with no intervening mutation performs exactly one
underlying write when the state was dirty and the write succeeds (zero when
it was clean): the first call clears the dirty flag on success so the
second call is a no-op, and a failed write leaves the flag set so a later
flush retries. -/
theorem saveCurrentState_twice (dm : DataManagerState) (ok1 ok2 : Bool) :
    ((saveCurrentState ok1 dm).2
        + (saveCurrentState ok2 (saveCurrentState ok1 dm).1).2
      = if dm.isDirty then (if ok1 then 1 else 2) else 0)
    ∧ (saveCurrentState ok1 dm).1.isDirty = (dm.isDirty && !ok1)
    ∧ (saveCurrentState ok2 (saveCurrentState ok1 dm).1).1.isDirty
        = (dm.isDirty && !ok1 && !ok2) := by
  cases hd : dm.isDirty <;> cases ok1 <;> cases ok2 <;>
    simp [saveCurrentState, hd]

theorem applyAction_names (st : ScorekeeperState) (act : LogAction) :
    (applyAction st act).teamAName = st.teamAName
      ∧ (applyAction st act).teamBName = st.teamBName := by
  cases act with
  | append team scorer assist timeStr now =>
      by_cases h : team = "A" <;>
        simp [applyAction, addNewScore, createLogObject, h]
  | edit scoreID scorer assist => simp [applyAction]
  | delete scoreID => simp [applyAction, rebuildTableAndCounters]

theorem applyActions_names (acts : List LogAction) :
    ∀ st : ScorekeeperState,
    (applyActions st acts).teamAName = st.teamAName
      ∧ (applyActions st acts).teamBName = st.teamBName := by
  induction acts with
  | nil => intro st; exact ⟨rfl, rfl⟩
  | cons act rest ih =>
      intro st
      have h1 := applyAction_names st act
      have h2 := ih (applyAction st act)
      exact ⟨h2.1.trans h1.1, h2.2.trans h1.2⟩

theorem mem_updateScoreLog (logs : List ScoreLog) (scoreID scorer assist : String)
    (e : ScoreLog) (he : e ∈ updateScoreLog logs scoreID scorer assist) :
    ∃ e' ∈ logs, e.Team = e'.Team := by
  induction logs with
  | nil => simp [updateScoreLog] at he
  | cons x rest ih =>
      by_cases hx : x.scoreID = scoreID
      · simp only [updateScoreLog, if_pos hx] at he
        rcases List.mem_cons.mp he with h | h
        · exact ⟨x, List.mem_cons_self x rest, by simp [h]⟩
        · exact ⟨e, List.mem_cons_of_mem x h, rfl⟩
      · simp only [updateScoreLog, if_neg hx] at he
        rcases List.mem_cons.mp he with h | h
        · exact ⟨x, List.mem_cons_self x rest, by simp [h]⟩
        · rcases ih h with ⟨e', he', ht⟩
          exact ⟨e', List.mem_cons_of_mem x he', ht⟩

theorem removeScoreLog_sublist (logs : List ScoreLog) (scoreID : String) :
    List.Sublist (removeScoreLog logs scoreID) logs := by
  induction logs with
  | nil => simp [removeScoreLog]
  | cons x rest ih =>
      by_cases hx : x.scoreID = scoreID
      · simp only [removeScoreLog, if_pos hx]
        exact List.sublist_cons_self x rest
      · simp only [removeScoreLog, if_neg hx]
        exact List.Sublist.cons₂ x ih

theorem teamsValid_applyAction (st : ScorekeeperState) (act : LogAction)
    (h : teamsValid st) : teamsValid (applyAction st act) := by
  have hnames := applyAction_names st act
  intro e he
  rw [hnames.1, hnames.2]
  cases act with
  | append team scorer assist timeStr now =>
      by_cases ht : team = "A" <;>
      · simp only [applyAction, addNewScore, createLogObject, ht] at he ⊢
        simp only [List.mem_append, List.mem_singleton] at he
        rcases he with he | he
        · simpa using h e he
        · subst he; simp
  | edit scoreID scorer assist =>
      simp only [applyAction] at he
      rcases mem_updateScoreLog _ _ _ _ e he with ⟨e', he', ht⟩
      rw [ht]; exact h e' he'
  | delete scoreID =>
      simp only [applyAction, rebuildTableAndCounters] at he
      exact h e ((removeScoreLog_sublist st.scoreLogs scoreID).subset he)

theorem teamsValid_applyActions (acts : List LogAction) :
    ∀ st : ScorekeeperState, teamsValid st → teamsValid (applyActions st acts) := by
  induction acts with
  | nil => intro st h; exact h
  | cons act rest ih =>
      intro st h
      exact ih (applyAction st act) (teamsValid_applyAction st act h)

theorem rebuild_foldl_counts (aName : String) (logs : List ScoreLog) :
    ∀ x y : Nat,
    logs.foldl (fun (ab : Nat × Nat) e =>
        if e.Team = aName then (ab.1 + 1, ab.2) else (ab.1, ab.2 + 1)) (x, y)
      = (x + logs.countP (fun e => e.Team == aName),
         y + logs.countP (fun e => !(e.Team == aName))) := by
  induction logs with
  | nil => intro x y; simp
  | cons e rest ih =>
      intro x y
      by_cases he : e.Team = aName <;>
        simp [List.foldl_cons, he, ih, List.countP_cons, Nat.add_assoc, Nat.add_comm]

theorem countP_not_add (p : ScoreLog → Bool) (l : List ScoreLog) :
    l.countP p + l.countP (fun a => !(p a)) = l.length := by
  induction l with
  | nil => simp
  | cons e rest ih =>
      cases hp : p e <;> simp [List.countP_cons, hp, ← ih] <;> omega

/-- C1 (amended): for every sequence of append/edit/delete operations in a
session whose two team names are distinct, after
`rebuildTableAndCounters` the totals sum to the log length, the A total
counts the entries whose `Team` equals the current Team A name, and the B
total counts the entries whose `Team` equals the current Team B name. -/
theorem rebuild_counters_match (a b : String) (hab : a ≠ b) (acts : List LogAction) :
    let st := rebuildTableAndCounters (applyActions (initialState a b) acts)
    st.teamAScore + st.teamBScore = st.scoreLogs.length
    ∧ st.teamAScore = st.scoreLogs.countP (fun e => e.Team == st.teamAName)
    ∧ st.teamBScore = st.scoreLogs.countP (fun e => e.Team == st.teamBName) := by
  intro st
  have hA : (applyActions (initialState a b) acts).teamAName = a :=
    (applyActions_names acts (initialState a b)).1
  have hB : (applyActions (initialState a b) acts).teamBName = b :=
    (applyActions_names acts (initialState a b)).2
  have hvalid : teamsValid (applyActions (initialState a b) acts) :=
    teamsValid_applyActions acts (initialState a b) (by intro e he; simp [initialState] at he)
  have hfold := rebuild_foldl_counts (applyActions (initialState a b) acts).teamAName
    (applyActions (initialState a b) acts).scoreLogs 0 0
  simp only [Nat.zero_add] at hfold
  have hst : st = { applyActions (initialState a b) acts with
      teamAScore := (applyActions (initialState a b) acts).scoreLogs.countP
        (fun e => e.Team == (applyActions (initialState a b) acts).teamAName),
      teamBScore := (applyActions (initialState a b) acts).scoreLogs.countP
        (fun e => !(e.Team == (applyActions (initialState a b) acts).teamAName)) } := by
    show rebuildTableAndCounters _ = _
    simp only [rebuildTableAndCounters, hfold]
  have hcongr : (applyActions (initialState a b) acts).scoreLogs.countP
      (fun e => !(e.Team == (applyActions (initialState a b) acts).teamAName))
      = (applyActions (initialState a b) acts).scoreLogs.countP
        (fun e => e.Team == (applyActions (initialState a b) acts).teamBName) := by
    apply List.countP_congr
    intro e he
    rcases hvalid e he with h | h
    · rw [h, hA, hB]
      simp [hab]
    · rw [h, hA, hB]
      simp [Ne.symm hab]
  rw [hst]
  exact ⟨countP_not_add _ _, rfl, hcongr⟩

/-- C1 witness: a concrete session with distinct team names. -/
theorem rebuild_counters_match_witness :
    ("Red" ≠ "Blue")
    ∧ (let st := rebuildTableAndCounters (applyActions (initialState "Red" "Blue") demoActs)
       st.teamAScore + st.teamBScore = st.scoreLogs.length
       ∧ st.teamAScore = st.scoreLogs.countP (fun e => e.Team == st.teamAName)
       ∧ st.teamBScore = st.scoreLogs.countP (fun e => e.Team == st.teamBName)) :=
  ⟨by decide, rebuild_counters_match "Red" "Blue" (by decide) demoActs⟩

/-- C1 counterexample: when both selectors hold the same team name `"X"`,
a single append for side B is counted into the A total by the rebuild, so
the B total (0) differs from the count of entries whose `Team` equals the
current Team B name (1) — the claim as stated fails. -/
theorem rebuild_counters_match_cex :
    let st := rebuildTableAndCounters (applyActions (initialState "X" "X")
        [LogAction.append "B" "s" "x" "t" 5])
    st.teamBScore = 0
    ∧ st.scoreLogs.countP (fun e => e.Team == st.teamBName) = 1
    ∧ st.teamBScore ≠ st.scoreLogs.countP (fun e => e.Team == st.teamBName) := by
  refine ⟨by decide, by decide, by decide⟩

theorem updateScoreLog_map_scoreID (logs : List ScoreLog) (scoreID scorer assist : String) :
    (updateScoreLog logs scoreID scorer assist).map ScoreLog.scoreID
      = logs.map ScoreLog.scoreID := by
  induction logs with
  | nil => simp [updateScoreLog]
  | cons x rest ih =>
      by_cases hx : x.scoreID = scoreID <;>
        simp [updateScoreLog, hx, ih]

theorem scoreIDs_sublist (acts : List LogAction) :
    ∀ st : ScorekeeperState,
    List.Sublist ((applyActions st acts).scoreLogs.map ScoreLog.scoreID)
      (st.scoreLogs.map ScoreLog.scoreID ++ (appendTimes acts).map Nat.repr) := by
  induction acts with
  | nil =>
      intro st
      simp [applyActions]
  | cons act rest ih =>
      intro st
      have hstep : applyActions st (act :: rest) = applyActions (applyAction st act) rest := rfl
      rw [hstep]
      cases act with
      | append team scorer assist timeStr now =>
          have hlogs : (applyAction st (LogAction.append team scorer assist timeStr now)).scoreLogs.map ScoreLog.scoreID
              = st.scoreLogs.map ScoreLog.scoreID ++ [Nat.repr now] := by
            by_cases ht : team = "A" <;>
              simp [applyAction, addNewScore, createLogObject, ht]
          have h1 := ih (applyAction st (LogAction.append team scorer assist timeStr now))
          rw [hlogs] at h1
          rw [show appendTimes (LogAction.append team scorer assist timeStr now :: rest)
                = now :: appendTimes rest from rfl]
          simpa [List.append_assoc] using h1
      | edit scoreID scorer assist =>
          have h1 := ih (applyAction st (LogAction.edit scoreID scorer assist))
          rw [show (applyAction st (LogAction.edit scoreID scorer assist)).scoreLogs
                = updateScoreLog st.scoreLogs scoreID scorer assist from rfl,
              updateScoreLog_map_scoreID] at h1
          exact h1
      | delete scoreID =>
          have h1 := ih (applyAction st (LogAction.delete scoreID))
          rw [show (applyAction st (LogAction.delete scoreID)).scoreLogs
                = removeScoreLog st.scoreLogs scoreID from rfl] at h1
          have h2 : List.Sublist ((removeScoreLog st.scoreLogs scoreID).map ScoreLog.scoreID)
              (st.scoreLogs.map ScoreLog.scoreID) :=
            (removeScoreLog_sublist st.scoreLogs scoreID).map ScoreLog.scoreID
          exact h1.trans (h2.append_right _)

/-- C7 (amended): within one session, the ids assigned to the log entries
are pairwise distinct provided no two append operations observe the same
`Date.now()` millisecond value (the id is exactly that value's decimal
string, so appends sharing a millisecond share an id). -/
theorem scoreIDs_nodup (a b : String) (acts : List LogAction)
    (h : (appendTimes acts).Nodup) :
    ((applyActions (initialState a b) acts).scoreLogs.map ScoreLog.scoreID).Nodup := by
  have hsub := scoreIDs_sublist acts (initialState a b)
  simp only [initialState, List.map_nil, List.nil_append] at hsub
  exact hsub.nodup (h.map natRepr_injective)

/-- C7 witness: three appends at distinct milliseconds (with an edit and a
delete interleaved) yield pairwise-distinct ids. -/
theorem scoreIDs_nodup_witness :
    (appendTimes
        [LogAction.append "A" "s1" "x1" "t1" 100,
         LogAction.append "B" "s2" "x2" "t2" 101,
         LogAction.edit "100" "s3" "x3",
         LogAction.append "A" "s4" "x4" "t4" 102,
         LogAction.delete "101"]).Nodup
    ∧ ((applyActions (initialState "Red" "Blue")
        [LogAction.append "A" "s1" "x1" "t1" 100,
         LogAction.append "B" "s2" "x2" "t2" 101,
         LogAction.edit "100" "s3" "x3",
         LogAction.append "A" "s4" "x4" "t4" 102,
         LogAction.delete "101"]).scoreLogs.map ScoreLog.scoreID).Nodup :=
  ⟨by decide,
    scoreIDs_nodup "Red" "Blue"
      [LogAction.append "A" "s1" "x1" "t1" 100,
       LogAction.append "B" "s2" "x2" "t2" 101,
       LogAction.edit "100" "s3" "x3",
       LogAction.append "A" "s4" "x4" "t4" 102,
       LogAction.delete "101"] (by decide)⟩

/-- C7 counterexample: two appends that observe the same `Date.now()` value
produce two distinct log entries carrying the SAME id, so ids are not
pairwise distinct as the claim states. -/
theorem scoreIDs_nodup_cex :
    let st := applyActions (initialState "Red" "Blue")
      [LogAction.append "A" "s1" "x1" "t1" 7,
       LogAction.append "B" "s2" "x2" "t2" 7]
    st.scoreLogs.length = 2
    ∧ st.scoreLogs.map ScoreLog.scoreID = ["7", "7"]
    ∧ ¬ (st.scoreLogs.map ScoreLog.scoreID).Nodup := by
  refine ⟨by decide, by decide, by decide⟩

/-- C9 (amended): after a successful export the displayed totals become 0
and the point log is cleared (in the app, the mirrored array and the
snapshot, whose timestamp is refreshed) — but the team names, rosters and
match clock label are retained, NOT replaced with the fresh defaults that
`resetGameState` installs. -/
theorem export_zeroes_scores_keeps_names (st : ScorekeeperState)
    (dm : DataManagerState) (now : Nat) (writeOk : Bool) :
    let r := handleSubmitScoreTail st dm now writeOk
    r.1.teamAScore = 0 ∧ r.1.teamBScore = 0 ∧ r.1.scoreLogs = []
    ∧ r.2.1.scoreLogs = [] ∧ r.2.1.gameState.scoreLogs = []
    ∧ r.2.1.gameState.teamAScore = 0 ∧ r.2.1.gameState.teamBScore = 0
    ∧ r.2.1.gameState.timestamp = now
    ∧ r.2.1.gameState.teamAName = dm.gameState.teamAName
    ∧ r.2.1.gameState.teamBName = dm.gameState.teamBName
    ∧ r.2.1.gameState.teamAPlayers = dm.gameState.teamAPlayers
    ∧ r.2.1.gameState.teamBPlayers = dm.gameState.teamBPlayers
    ∧ r.2.1.gameState.gameTime = dm.gameState.gameTime := by
  cases writeOk <;>
    simp [handleSubmitScoreTail, clearScoreLogs, updateGameStateAfterSubmit,
      saveCurrentState, rebuildTableAndCounters]

/-- C9 counterexample: a concrete export after which the snapshot still
holds the team names, rosters and clock label — it differs from the full
replacement `resetGameState` performs, so the claim as stated fails. -/
theorem export_zeroes_scores_keeps_names_cex :
    let gs0 : GameState :=
      { teamAScore := 1, teamBScore := 0, teamAName := "Red", teamBName := "Blue",
        teamAPlayers := "p1", teamBPlayers := "p2", gameTime := "10:00",
        scoreLogs := [{ scoreID := "1", GameID := "Red vs Blue", Time := "t",
                        Team := "Red", Score := "s", Assist := "x" }],
        timestamp := 100 }
    let dm0 : DataManagerState :=
      { gameState := gs0, scoreLogs := gs0.scoreLogs, isDirty := false }
    let r := handleSubmitScoreTail (initialState "Red" "Blue") dm0 200 true
    r.2.1.gameState.teamAName = "Red"
    ∧ ((resetGameState dm0 200).gameState.teamAName = ""
        ∧ (resetGameState dm0 200).gameState.gameTime = "")
    ∧ r.2.1.gameState ≠ (resetGameState dm0 200).gameState := by
  refine ⟨by decide, ⟨by decide, by decide⟩, by decide⟩

/-- C10: a persisted snapshot at least 24 hours old (but within the 7-day
expiry) is still loaded wholesale at startup — no restore prompt, no
restore, no reset — so the in-memory log holds the old entries (and a
subsequent export would include them) while both displayed totals are 0;
the `teamAScore == count of Team-A entries` invariant fails in that state. -/
theorem stale_snapshot_breaks_invariant (gs : GameState) (now : Nat) (choice : Bool)
    (hAge : now - gs.timestamp ≥ TWENTY_FOUR_HOURS_MS)
    (_hFresh : now - gs.timestamp < SEVEN_DAYS_MS)
    (hEntry : ∃ e ∈ gs.scoreLogs, e.Team = gs.teamAName) :
    let r := startupSequence (some gs) now choice
    r.dataMgr.gameState = gs
    ∧ r.dataMgr.scoreLogs = gs.scoreLogs
    ∧ exportLogs r.dataMgr = gs.scoreLogs
    ∧ r.teamAScore = 0 ∧ r.teamBScore = 0
    ∧ r.teamAScore
        ≠ r.dataMgr.scoreLogs.countP (fun e => e.Team == r.dataMgr.gameState.teamAName) := by
  intro r
  have hcond : ¬ ((loadAllData (some gs) now).gameState.timestamp ≠ 0
      ∧ now - (loadAllData (some gs) now).gameState.timestamp < TWENTY_FOUR_HOURS_MS) := by
    simp only [loadAllData, loadGameState]
    intro hc
    omega
  have hr : r = { teamAScore := 0, teamBScore := 0, dataMgr := loadAllData (some gs) now } := by
    show startupSequence (some gs) now choice = _
    rw [startupSequence]
    simp only [if_neg hcond]
  rw [hr]
  refine ⟨rfl, rfl, rfl, rfl, rfl, ?_⟩
  have hpos : 0 < gs.scoreLogs.countP (fun e => e.Team == gs.teamAName) := by
    rcases hEntry with ⟨e, he, ht⟩
    exact List.countP_pos_iff.mpr ⟨e, he, by simp [ht]⟩
  simp only [loadAllData, loadGameState]
  omega

/-- C10 witness: a one-entry snapshot saved exactly 24 hours ago. -/
theorem stale_snapshot_breaks_invariant_witness :
    (let gs : GameState :=
      { teamAScore := 1, teamBScore := 0, teamAName := "Red", teamBName := "Blue",
        teamAPlayers := "", teamBPlayers := "", gameTime := "",
        scoreLogs := [{ scoreID := "1", GameID := "Red vs Blue", Time := "t",
                        Team := "Red", Score := "s", Assist := "x" }],
        timestamp := 1000 }
     (1000 + TWENTY_FOUR_HOURS_MS) - gs.timestamp ≥ TWENTY_FOUR_HOURS_MS
     ∧ (1000 + TWENTY_FOUR_HOURS_MS) - gs.timestamp < SEVEN_DAYS_MS
     ∧ (∃ e ∈ gs.scoreLogs, e.Team = gs.teamAName))
    ∧ (let gs : GameState :=
      { teamAScore := 1, teamBScore := 0, teamAName := "Red", teamBName := "Blue",
        teamAPlayers := "", teamBPlayers := "", gameTime := "",
        scoreLogs := [{ scoreID := "1", GameID := "Red vs Blue", Time := "t",
                        Team := "Red", Score := "s", Assist := "x" }],
        timestamp := 1000 }
       let r := startupSequence (some gs) (1000 + TWENTY_FOUR_HOURS_MS) true
       r.dataMgr.gameState = gs
       ∧ r.dataMgr.scoreLogs = gs.scoreLogs
       ∧ exportLogs r.dataMgr = gs.scoreLogs
       ∧ r.teamAScore = 0 ∧ r.teamBScore = 0
       ∧ r.teamAScore
           ≠ r.dataMgr.scoreLogs.countP (fun e => e.Team == r.dataMgr.gameState.teamAName)) :=
  ⟨⟨by decide, by decide, by decide⟩,
    stale_snapshot_breaks_invariant _ (1000 + TWENTY_FOUR_HOURS_MS) true
      (by decide) (by decide) (by decide)⟩

end Scorekeeper
